import Mathlib

/-!
Verification of the server-synchronized table controller of Dispatcharr's
front end (StreamsTable.jsx, M3UProfile.jsx / ChannelStreams).

The JavaScript source is shallowly embedded: React state updates become
explicit state-passing functions, the UI event loop becomes a step function
over an event type, and asynchronous gateway calls become outcome values
fed back to the step function.
-/

namespace Dispatcharr

/-! ## Sorting state (StreamsTable.jsx)

`sorting` is a list of `{id, desc}` entries.  In the source, the `desc`
field takes only the JavaScript values `''` (the initial state, line 189),
`false`, and `true`.  `onSortingChange` compares `desc` to `false` with the
loose `==` operator, under which `'' == false` is true; `fetchData` tests
`desc` for truthiness, under which `''` and `false` are falsy.  We embed the
three possible values together with both observations. -/

/-- The JavaScript values that ever inhabit `sorting[0].desc`:
`''`, `false`, `true`. -/
inductive DescVal where
  | emptyStr
  | bfalse
  | btrue
deriving DecidableEq, Repr

/-- JavaScript truthiness of a `DescVal` (`''` and `false` are falsy),
as used by `sorting[0].desc ? '-' : ''` in `fetchData`. -/
def DescVal.truthy : DescVal → Bool
  | .emptyStr => false
  | .bfalse => false
  | .btrue => true

/-- JavaScript loose equality `desc == false` (`'' == false` is true because
both coerce to the number 0), as used by `onSortingChange`. -/
def DescVal.looseEqFalse : DescVal → Bool
  | .emptyStr => true
  | .bfalse => true
  | .btrue => false

/-- One entry of the `sorting` array: `{id: <column>, desc: <value>}`. -/
structure SortEntry where
  id : String
  desc : DescVal
deriving DecidableEq, Repr

/-- The initial sorting state, StreamsTable.jsx line 189:
`useState([{ id: 'name', desc: '' }])`. -/
def initialSorting : List SortEntry := [⟨"name", DescVal.emptyStr⟩]

/-- `onSortingChange(column)`, StreamsTable.jsx lines 476–499.
`sorting[0]?.id` is `undefined` on an empty list, and `undefined == column`
is false for any string `column`, so the empty case takes the `else` branch. -/
def onSortingChange (column : String) (sorting : List SortEntry) :
    List SortEntry :=
  match sorting with
  | [] => [⟨column, DescVal.bfalse⟩]
  | s :: _ =>
    if s.id = column then
      if s.desc.looseEqFalse then [⟨column, DescVal.btrue⟩] else []
    else
      [⟨column, DescVal.bfalse⟩]

/-- The abstract sort direction of a sorting state, as observed by
`fetchData`'s `ordering` parameter: no entry means unsorted, a truthy `desc`
means descending, anything else ascending. -/
inductive SortDirection where
  | unsorted
  | asc
  | desc
deriving DecidableEq, Repr

/-- Direction read off a sorting state. -/
def directionOf : List SortEntry → SortDirection
  | [] => SortDirection.unsorted
  | s :: _ => if s.desc.truthy then SortDirection.desc else SortDirection.asc

/-- The `ordering` request parameter built by `fetchData`
(StreamsTable.jsx lines 350–354): present only when `sorting` is nonempty;
the field name preceded by `-` exactly when `desc` is truthy. -/
def orderingParam : List SortEntry → Option String
  | [] => none
  | s :: _ => some ((if s.desc.truthy then "-" else "") ++ s.id)

/-! ## Filters and pagination (StreamsTable.jsx) -/

/-- The filter map, StreamsTable.jsx lines 196–200:
`useState({name: '', channel_group: '', m3u_account: ''})`. -/
structure Filters where
  name : String
  channel_group : String
  m3u_account : String
deriving DecidableEq, Repr

/-- `Object.entries` of the filter map, in declaration order. -/
def Filters.entries (f : Filters) : List (String × String) :=
  [("name", f.name), ("channel_group", f.channel_group),
   ("m3u_account", f.m3u_account)]

/-- The initial (all-empty) filter map. -/
def initialFilters : Filters := ⟨"", "", ""⟩

/-- `handleFilterChange` / `handleGroupChange` / `handleM3UChange`
(StreamsTable.jsx lines 310–330): set the named key of the filter map. -/
def setFilterValue (f : Filters) (key value : String) : Filters :=
  if key = "name" then { f with name := value }
  else if key = "channel_group" then { f with channel_group := value }
  else if key = "m3u_account" then { f with m3u_account := value }
  else f

/-- Pagination state, StreamsTable.jsx lines 192–195:
`useState({pageIndex: 0, pageSize: 50})`. -/
structure Pagination where
  pageIndex : Nat
  pageSize : Nat
deriving DecidableEq, Repr

/-- The initial pagination state. -/
def initialPagination : Pagination := ⟨0, 50⟩

/-- The `URLSearchParams` built by `fetchData` (StreamsTable.jsx lines
345–359): `page` (1-based) and `page_size` always; `ordering` when `sorting`
is nonempty; then every filter entry whose value is truthy (nonempty). -/
def buildParams (pag : Pagination) (sorting : List SortEntry)
    (debounced : Filters) : List (String × String) :=
  [("page", toString (pag.pageIndex + 1)),
   ("page_size", toString pag.pageSize)]
    ++ (match orderingParam sorting with
        | some o => [("ordering", o)]
        | none => [])
    ++ debounced.entries.filter (fun kv => kv.2 ≠ "")

/-! ## Fetch results and completion (StreamsTable.jsx lines 332–398) -/

/-- A row of the remote data set; domain fields other than the stable id are
irrelevant to the controller. -/
structure Row where
  id : Nat
deriving DecidableEq, Repr

/-- The Gateway's list response: `{results, count}`. -/
structure QueryResult where
  results : List Row
  count : Nat
deriving DecidableEq, Repr

/-- JavaScript `Math.ceil(a / b)` for naturals (`b > 0`), used for
`setPageCount(Math.ceil(result.count / pagination.pageSize))`. -/
def mathCeilDiv (a b : Nat) : Nat := (a + b - 1) / b

/-- The template literal `` `${startItem} to ${endItem} of ${result.count}` ``
with `startItem = pageIndex * pageSize + 1` and
`endItem = min((pageIndex + 1) * pageSize, count)`
(StreamsTable.jsx lines 373–385). -/
def mkPaginationString (pageIndex pageSize count : Nat) : String :=
  toString (pageIndex * pageSize + 1) ++ " to " ++
    toString (min ((pageIndex + 1) * pageSize) count) ++ " of " ++
    toString count

/-- Outcome of the `Promise.all` in `fetchData`: either all three gateway
calls succeed, or the `catch` branch runs with an error. -/
inductive FetchOutcome where
  | success (result : QueryResult) (ids : List Nat) (groups : List String)
  | failure (err : String)
deriving Repr

/-- The full table-controller state of `StreamsTable`. -/
structure TableState where
  data : List Row
  allRowIds : List Nat
  pageCount : Nat
  paginationString : String
  groupOptions : List String
  initialDataCount : Option Nat
  isLoading : Bool
  sorting : List SortEntry
  pagination : Pagination
  filters : Filters
  debouncedFilters : Filters
  /-- Pending debounce window: deadline and the staged filter value.
  Modelled from the spec: `useDebounce` lives in `frontend/src/utils`,
  which is not included here; per the spec it is "a cancellable timer: each
  new edit cancels any pending timer and schedules a new one", with a 500 ms
  quiet period, and on commit it invokes the callback of lines 201–207. -/
  debounceTimer : Option (Nat × Filters)
  errorLog : List String
deriving Repr

/-- Completion of `fetchData` (lines 361–390).  On success: row data, id
list, page count, group options, the range string, and (once) the initial
data count are set.  On failure: only `console.error` runs.  Either way the
final `setIsLoading(false)` (line 390) clears the loading flag. -/
def fetchDataComplete (st : TableState) (o : FetchOutcome) : TableState :=
  match o with
  | FetchOutcome.success result ids groups =>
    { st with
      allRowIds := ids
      data := result.results
      pageCount := mathCeilDiv result.count st.pagination.pageSize
      groupOptions := groups
      initialDataCount :=
        match st.initialDataCount with
        | none => some result.count
        | some c => some c
      paginationString :=
        mkPaginationString st.pagination.pageIndex st.pagination.pageSize
          result.count
      isLoading := false }
  | FetchOutcome.failure err =>
    { st with errorLog := st.errorLog ++ [err], isLoading := false }

/-- Events driving the table controller.  `editFilter` and `debounceFire`
carry the current time in milliseconds (for the 500 ms debounce window);
`pageIndexChange` carries the 1-based page from the pagination control. -/
inductive TableEvent where
  | editFilter (key value : String) (now : Nat)
  | debounceFire (now : Nat)
  | sortToggle (column : String)
  | pageIndexChange (page : Nat)
  | pageSizeChange (size : Nat)
  | fetchComplete (outcome : FetchOutcome)

/-- One step of the UI event loop.  Returns the new state and the list of
gateway list-requests issued by this step.  A request is issued exactly when
a dependency of `fetchData` changes (`pagination`, `sorting`,
`debouncedFilters`), re-running the `useEffect` of lines 626–629:
* `editFilter`: `setFilters` plus (modelled from the spec) rescheduling the
  shared `useDebounce` window to now + 500 ms — `filters` itself is not a
  `fetchData` dependency, so no request is issued;
* `debounceFire`: if the pending window is due, commit the staged value to
  `debouncedFilters` and run the commit callback of lines 201–207, which
  resets `pageIndex` to 0; the state change triggers one fetch;
* `sortToggle` / `pageSizeChange`: update state and trigger one fetch;
* `pageIndexChange`: `onPageIndexChange` (lines 457–466) returns without any
  update when the 1-based page is falsy (0) or exceeds `pageCount`;
* `fetchComplete`: apply `fetchDataComplete`; completion alone never issues
  a request (no automatic retry). -/
def tableStep (st : TableState) (e : TableEvent) :
    TableState × List (List (String × String)) :=
  match e with
  | TableEvent.editFilter k v now =>
    let f := setFilterValue st.filters k v
    ({ st with filters := f, debounceTimer := some (now + 500, f) }, [])
  | TableEvent.debounceFire now =>
    match st.debounceTimer with
    | some (deadline, staged) =>
      if deadline ≤ now then
        let pag : Pagination := { st.pagination with pageIndex := 0 }
        ({ st with
            debouncedFilters := staged
            pagination := pag
            debounceTimer := none
            isLoading := true },
         [buildParams pag st.sorting staged])
      else (st, [])
    | none => (st, [])
  | TableEvent.sortToggle c =>
    let s := onSortingChange c st.sorting
    ({ st with sorting := s, isLoading := true },
     [buildParams st.pagination s st.debouncedFilters])
  | TableEvent.pageIndexChange p =>
    if p = 0 ∨ st.pageCount < p then (st, [])
    else
      let pag : Pagination := { st.pagination with pageIndex := p - 1 }
      ({ st with pagination := pag, isLoading := true },
       [buildParams pag st.sorting st.debouncedFilters])
  | TableEvent.pageSizeChange n =>
    let pag : Pagination := { st.pagination with pageSize := n }
    ({ st with pagination := pag, isLoading := true },
     [buildParams pag st.sorting st.debouncedFilters])
  | TableEvent.fetchComplete o => (fetchDataComplete st o, [])

/-! ## The shared debounce window

Both debounce sites — `useDebounce(filters, 500, ...)` in StreamsTable.jsx
(lines 201–207; the hook body is spec-modelled, see `TableState`) and the
`setTimeout`/`clearTimeout` effect over `{search, replace}` in
M3UProfile.jsx (lines 70–76) — follow the same discipline: each edit cancels
any pending timer and schedules a commit of the freshly edited value 500 ms
later; the pending value is committed when its deadline passes. -/

/-- Process one timestamped edit against the pending window: if a pending
commit is already due, it flushes first; the edit then (re)schedules its own
value at `t + 500`. -/
def debounceStep {α : Type} (pending : Option (Nat × α)) (t : Nat) (v : α) :
    List α × Option (Nat × α) :=
  match pending with
  | some (d, w) =>
    if d ≤ t then ([w], some (t + 500, v)) else ([], some (t + 500, v))
  | none => ([], some (t + 500, v))

/-- Run a list of timestamped edits from a pending window; any window still
pending after the last edit eventually fires. Returns the committed values
in order. -/
def debounceCommits {α : Type} :
    Option (Nat × α) → List (Nat × α) → List α
  | none, [] => []
  | some (_, w), [] => [w]
  | pending, (t, v) :: rest =>
    let s := debounceStep pending t v
    s.1 ++ debounceCommits s.2 rest

/-- Committed values produced by a list of timestamped edits starting with
no pending window. -/
def debounceRun {α : Type} (edits : List (Nat × α)) : List α :=
  debounceCommits none edits

/-- `true` when each edit after the first occurs strictly within 500 ms of
its predecessor (one uninterrupted burst). -/
def burstWithin500 {α : Type} : List (Nat × α) → Bool
  | [] => true
  | [_] => true
  | (t1, _) :: (t2, v) :: rest =>
    decide (t2 < t1 + 500) && burstWithin500 ((t2, v) :: rest)

/-! ## Regex live preview (M3UProfile.jsx lines 137–158) -/

/-- An abstract compiled JavaScript `RegExp` with its two uses in the
source: `replace` with a callback (highlighting) and `replace` with a
replacement pattern string. The matching behavior itself is external
(the JavaScript engine). -/
structure JSRegExp where
  replaceMatches : String → (String → String) → String
  replaceWithPattern : String → String → String

/-- `getHighlightedSearchText` (M3UProfile.jsx lines 137–148).  `compile`
models `new RegExp(searchPattern, 'g')`: it returns `none` exactly when
construction throws, which the source catches, returning the sample
unchanged.  Empty pattern or empty sample (falsy strings) short-circuit
first. -/
def getHighlightedSearchText (compile : String → Option JSRegExp)
    (searchPattern sampleInput : String) : String :=
  if searchPattern = "" || sampleInput = "" then sampleInput
  else
    match compile searchPattern with
    | some re =>
      re.replaceMatches sampleInput
        (fun m =>
          "<mark style=\"background-color: #ffee58;\">" ++ m ++ "</mark>")
    | none => sampleInput

/-- `getLocalReplaceResult` (M3UProfile.jsx lines 150–158): same guards and
catch as `getHighlightedSearchText`, replacing with `replacePattern`. -/
def getLocalReplaceResult (compile : String → Option JSRegExp)
    (searchPattern replacePattern sampleInput : String) : String :=
  if searchPattern = "" || sampleInput = "" then sampleInput
  else
    match compile searchPattern with
    | some re => re.replaceWithPattern sampleInput replacePattern
    | none => sampleInput

/-! ## Drag reorder (ChannelStreams in M3UProfile.jsx, lines 314–563) -/

/-- A stream row of the per-channel list; only the stable id matters to the
reorder logic. -/
structure Stream where
  id : Nat
  name : String
deriving DecidableEq, Repr

/-- Modelled from the spec: dnd-kit's `arrayMove` (an external library
function, not part of this repository) is per the spec "a single
remove-then-insert operation on the current ordered ID list": the element at
`oldIndex` is removed and reinserted at `newIndex`.  Out-of-range `oldIndex`
(which the callers never produce: both indices come from `indexOf` on ids
rendered in the list) leaves the list unchanged. -/
def arrayMove {α : Type} (l : List α) (oldIndex newIndex : Nat) : List α :=
  match l[oldIndex]? with
  | none => l
  | some x => (l.eraseIdx oldIndex).insertIdx newIndex x

/-- `handleDragEnd` (M3UProfile.jsx lines 471–494) as a function from the
admin flag, the current row list, and the drag event's `active`/`over` ids
to the new local row list and the persisted id order (the `streams` array
passed to `API.updateChannel`), if any.  An unprivileged actor returns
immediately (lines 472–474); otherwise the guard
`active && over && active.id !== over.id` must pass. -/
def handleDragEnd (isAdmin : Bool) (data : List Stream)
    (active over : Option Nat) : List Stream × Option (List Nat) :=
  if isAdmin = false then (data, none)
  else
    match active, over with
    | some a, some o =>
      if a ≠ o then
        let dataIds := data.map Stream.id
        let oldIndex := dataIds.indexOf a
        let newIndex := dataIds.indexOf o
        let retval := arrayMove data oldIndex newIndex
        (retval, some (retval.map Stream.id))
      else (data, none)
    | _, _ => (data, none)

/-- The phases of the drag-reorder coordinator of §4.3 of the spec. -/
inductive DragPhase where
  | Idle
  | Dragging (active : Nat)
  | Committing
deriving DecidableEq, Repr

/-- The named drag events: `grab` is dnd-kit's drag start on a row handle,
`drop` is drag end (with the id of the row dropped over, if any), `ack` and
`nack` are resolution and rejection of the persist call. -/
inductive DragEvent where
  | grab (rowId : Nat)
  | drop (over : Option Nat)
  | ack
  | nack
deriving DecidableEq, Repr

/-- State of the drag coordinator: phase, the locally displayed row list
(`data` of `ChannelStreams`), and the orders sent to `API.updateChannel` so
far. -/
structure DragState where
  phase : DragPhase
  data : List Stream
  persisted : List (List Nat)
deriving DecidableEq, Repr

/-- The drag coordinator step.  `grab` starts a Dragging session
unconditionally: in the source the drag handle (`RowDragHandleCell`,
`useDraggable`/`useSortable`) is rendered and enabled for every row with no
privilege check, and no `onDragStart` guard exists — the only privilege
check sits inside `handleDragEnd`.  `drop` runs `handleDragEnd`; when a
persist call is issued the session is Committing until the promise settles
(`.then` — there is no `.catch`, and nothing restores the previous `data`),
after which either resolution returns the coordinator to Idle. -/
def dragStep (isAdmin : Bool) (st : DragState) (e : DragEvent) : DragState :=
  match st.phase, e with
  | DragPhase.Idle, DragEvent.grab r => { st with phase := DragPhase.Dragging r }
  | DragPhase.Dragging a, DragEvent.drop over =>
    let s := handleDragEnd isAdmin st.data (some a) over
    match s.2 with
    | some order =>
      { st with
          phase := DragPhase.Committing
          data := s.1
          persisted := st.persisted ++ [order] }
    | none => { st with phase := DragPhase.Idle, data := s.1 }
  | DragPhase.Committing, DragEvent.ack => { st with phase := DragPhase.Idle }
  | DragPhase.Committing, DragEvent.nack => { st with phase := DragPhase.Idle }
  | _, _ => st

/-- A concrete controller state used by witnesses: page 5 (0-based) is
active and an edit of the name filter to `"foxtrot"` is staged in the
debounce window with deadline 500. -/
def sampleTableState : TableState :=
  { data := [⟨1⟩, ⟨2⟩]
    allRowIds := [1, 2]
    pageCount := 9
    paginationString := ""
    groupOptions := []
    initialDataCount := some 420
    isLoading := false
    sorting := initialSorting
    pagination := ⟨5, 50⟩
    filters := ⟨"foxtrot", "", ""⟩
    debouncedFilters := initialFilters
    debounceTimer := some (500, ⟨"foxtrot", "", ""⟩)
    errorLog := [] }

/-- The four-row list `[A, B, C, D]` of the drag example, with ids 1–4. -/
def sampleRows : List Stream :=
  [⟨1, "A"⟩, ⟨2, "B"⟩, ⟨3, "C"⟩, ⟨4, "D"⟩]

end Dispatcharr

namespace Dispatcharr

/-! ## Theorems -/

/-- C3: three-state sort cycle.  First conjunct: toggling the field that is
currently active advances ascending → descending → unsorted.  Second
conjunct: toggling a field different from the active one (including toggling
from the unsorted state) discards the old state entirely and yields exactly
an ascending state for the new field.  Third conjunct: every state produced
by a toggle holds at most one sort field. -/
theorem sort_toggle_cycle (s : List SortEntry) (c : String) :
    ((s.head?.map SortEntry.id = some c) →
      ((directionOf s = SortDirection.asc →
          directionOf (onSortingChange c s) = SortDirection.desc) ∧
       (directionOf s = SortDirection.desc →
          directionOf (onSortingChange c s) = SortDirection.unsorted))) ∧
    ((s.head?.map SortEntry.id ≠ some c) →
      onSortingChange c s = [⟨c, DescVal.bfalse⟩] ∧
      directionOf (onSortingChange c s) = SortDirection.asc) ∧
    (onSortingChange c s).length ≤ 1 := by
  match s with
  | [] =>
    refine ⟨?_, ?_, ?_⟩
    · intro h; simp [List.head?] at h
    · intro _; constructor <;> rfl
    · simp [onSortingChange]
  | e :: rest =>
    refine ⟨?_, ?_, ?_⟩
    · intro h
      simp [List.head?] at h
      constructor
      · intro hasc
        cases he : e.desc <;>
          simp [onSortingChange, h, he, DescVal.looseEqFalse, directionOf,
            DescVal.truthy] <;>
          simp [directionOf, he, DescVal.truthy] at hasc
      · intro hdesc
        cases he : e.desc <;>
          simp [onSortingChange, h, he, DescVal.looseEqFalse, directionOf,
            DescVal.truthy] <;>
          simp [directionOf, he, DescVal.truthy] at hdesc
    · intro h
      simp [List.head?] at h
      constructor
      · simp [onSortingChange, h]
      · simp [onSortingChange, h, directionOf, DescVal.truthy]
    · by_cases h : e.id = c <;>
        cases he : e.desc <;>
        simp [onSortingChange, h, he, DescVal.looseEqFalse]

/-- Witness for C3 at a concrete state: the active field `name` in the
ascending (`desc = false`) state toggles to descending. -/
theorem sort_toggle_cycle_witness :
    ([⟨"name", DescVal.bfalse⟩] : List SortEntry).head?.map SortEntry.id =
        some "name" ∧
    directionOf (onSortingChange "name" [⟨"name", DescVal.bfalse⟩]) =
        SortDirection.desc :=
  ⟨by decide,
   ((sort_toggle_cycle [⟨"name", DescVal.bfalse⟩] "name").1 (by decide)).1
     (by decide)⟩

/-- C10: the initial sorting state is `[{id: 'name', desc: ''}]`, hence never
unsorted before any interaction; `fetchData` from that state sends
`ordering = "name"` with no descending marker (since `''` is falsy); yet the
first toggle on `name` jumps straight to `desc = true` (descending), because
`'' == false` holds under JavaScript loose equality. -/
theorem initial_sort_skips_ascending :
    initialSorting ≠ [] ∧
    directionOf initialSorting = SortDirection.asc ∧
    orderingParam initialSorting = some "name" ∧
    onSortingChange "name" initialSorting = [⟨"name", DescVal.btrue⟩] ∧
    directionOf (onSortingChange "name" initialSorting) =
      SortDirection.desc := by
  refine ⟨by decide, by decide, ?_, by decide, by decide⟩
  simp [initialSorting, orderingParam, DescVal.truthy]

/-- C1: whenever the debounce window commits (a due `debounceFire`), the new
state has `pageIndex = 0`, and the single fetch issued by that commit
carries `page = "1"` (the 1-based form of page index 0) — whatever page was
active before. -/
theorem filter_commit_resets_page (st : TableState) (now : Nat)
    (req : List (String × String))
    (hreq : req ∈ (tableStep st (TableEvent.debounceFire now)).2) :
    (tableStep st (TableEvent.debounceFire now)).1.pagination.pageIndex = 0 ∧
    req.lookup "page" = some "1" := by
  match h : st.debounceTimer with
  | none => simp [tableStep, h] at hreq
  | some (deadline, staged) =>
    by_cases hd : deadline ≤ now
    · have hreq' :
          req = buildParams { st.pagination with pageIndex := 0 }
            st.sorting staged := by
        simpa [tableStep, h, hd] using hreq
      subst hreq'
      constructor
      · simp [tableStep, h, hd]
      · have h1 : (toString (1 : Nat) : String) = "1" := rfl
        simp [buildParams, h1]
    · simp [tableStep, h, hd] at hreq

end Dispatcharr

namespace Dispatcharr

/-- Witness for C1: from `sampleTableState` (page 5 active, name filter
staged), the commit at time 500 issues a fetch whose `page` parameter is
`"1"`, and the post-commit page index is 0. -/
theorem filter_commit_resets_page_witness :
    buildParams ⟨0, 50⟩ initialSorting ⟨"foxtrot", "", ""⟩ ∈
        (tableStep sampleTableState (TableEvent.debounceFire 500)).2 ∧
    ((tableStep sampleTableState
        (TableEvent.debounceFire 500)).1.pagination.pageIndex = 0 ∧
     (buildParams ⟨0, 50⟩ initialSorting ⟨"foxtrot", "", ""⟩).lookup "page" =
        some "1") :=
  ⟨by decide,
   filter_commit_resets_page sampleTableState 500 _ (by decide)⟩

/-- C8: when the `Promise.all` of `fetchData` fails, the error is appended
to the log, the loading flag is cleared, the displayed row data, page count,
range string and id list all keep their previous values, completion issues
no request (no automatic retry), and a subsequent user-triggered state
change (here: a sort toggle) issues exactly one request. -/
theorem fetch_failure_keeps_snapshot (st : TableState) (err : String) :
    (tableStep st (TableEvent.fetchComplete
        (FetchOutcome.failure err))).1.data = st.data ∧
    (tableStep st (TableEvent.fetchComplete
        (FetchOutcome.failure err))).1.pageCount = st.pageCount ∧
    (tableStep st (TableEvent.fetchComplete
        (FetchOutcome.failure err))).1.paginationString =
      st.paginationString ∧
    (tableStep st (TableEvent.fetchComplete
        (FetchOutcome.failure err))).1.allRowIds = st.allRowIds ∧
    (tableStep st (TableEvent.fetchComplete
        (FetchOutcome.failure err))).1.isLoading = false ∧
    (tableStep st (TableEvent.fetchComplete
        (FetchOutcome.failure err))).1.errorLog = st.errorLog ++ [err] ∧
    (tableStep st (TableEvent.fetchComplete
        (FetchOutcome.failure err))).2 = [] ∧
    (∀ c, (tableStep st (TableEvent.sortToggle c)).2.length = 1) := by
  refine ⟨rfl, rfl, rfl, rfl, rfl, rfl, rfl, ?_⟩
  intro c
  rfl

/-- C9: when the search pattern fails to compile — and likewise when the
pattern or the sample input is empty — both live-preview computations
return the sample input unchanged instead of propagating an error. -/
theorem regex_failure_falls_back (compile : String → Option JSRegExp)
    (searchPattern replacePattern sampleInput : String)
    (h : compile searchPattern = none ∨ searchPattern = "" ∨
      sampleInput = "") :
    getHighlightedSearchText compile searchPattern sampleInput =
      sampleInput ∧
    getLocalReplaceResult compile searchPattern replacePattern sampleInput =
      sampleInput := by
  rcases h with h | h | h
  · by_cases hp : searchPattern = ""
    · simp [getHighlightedSearchText, getLocalReplaceResult, hp]
    · simp [getHighlightedSearchText, getLocalReplaceResult, hp, h]
  · simp [getHighlightedSearchText, getLocalReplaceResult, h]
  · simp [getHighlightedSearchText, getLocalReplaceResult, h]

/-- Witness for C9: a compile function that always fails (as `new RegExp`
does on the malformed pattern `"("`) leaves the sample URL unchanged in
both previews. -/
theorem regex_failure_falls_back_witness :
    ((fun _ => none : String → Option JSRegExp) "(" = none ∨
      ("(" : String) = "" ∨ ("http://host/a.ts" : String) = "") ∧
    (getHighlightedSearchText (fun _ => none) "(" "http://host/a.ts" =
        "http://host/a.ts" ∧
     getLocalReplaceResult (fun _ => none) "(" "x" "http://host/a.ts" =
        "http://host/a.ts") :=
  ⟨Or.inl rfl,
   regex_failure_falls_back (fun _ => none) "(" "x" "http://host/a.ts"
     (Or.inl rfl)⟩

end Dispatcharr

namespace Dispatcharr

/-- Helper for C2: once an edit at time `t` with value `v` has scheduled the
window at `t + 500`, a burst of further edits (each strictly within 500 ms
of its predecessor) never lets the window flush early, so exactly the final
staged value commits. -/
theorem debounceCommits_burst {α : Type} (rest : List (Nat × α)) :
    ∀ (t : Nat) (v : α) (tl : Nat) (vl : α),
      burstWithin500 ((t, v) :: rest) = true →
      ((t, v) :: rest).getLast? = some (tl, vl) →
      debounceCommits (some (t + 500, v)) rest = [vl] := by
  induction rest with
  | nil =>
    intro t v tl vl _ hl
    simp at hl
    simp [debounceCommits, hl.2]
  | cons p rest ih =>
    intro t v tl vl hb hl
    obtain ⟨t2, v2⟩ := p
    have hb1 : t2 < t + 500 ∧ burstWithin500 ((t2, v2) :: rest) = true := by
      simpa [burstWithin500] using hb
    have hl1 : ((t2, v2) :: rest).getLast? = some (tl, vl) := by
      rw [List.getLast?_cons_cons] at hl
      exact hl
    have hno : ¬ (t + 500 ≤ t2) := by omega
    calc debounceCommits (some (t + 500, v)) ((t2, v2) :: rest)
        = debounceCommits (some (t2 + 500, v2)) rest := by
          simp [debounceCommits, debounceStep, hno]
      _ = [vl] := ih t2 v2 tl vl hb1.2 hl1

/-- C2: for any burst of edits in which each edit falls strictly within
500 ms of the previous one, the shared debounce window commits exactly once,
with the value of the last edit; and a debounce commit issues at most one
fetch.  The statement is generic in the staged value, covering both the
filter map of `StreamsTable` and the `{search, replace}` pattern pair of the
regex live preview, which share the same edit-cancels-and-reschedules
discipline. -/
theorem debounce_burst_single_fetch {α : Type} (edits : List (Nat × α))
    (tl : Nat) (vl : α)
    (hb : burstWithin500 edits = true)
    (hl : edits.getLast? = some (tl, vl)) :
    debounceRun edits = [vl] ∧
    (∀ (st : TableState) (now : Nat),
      (tableStep st (TableEvent.debounceFire now)).2.length ≤ 1) := by
  constructor
  · match edits with
    | [] => simp at hl
    | (t, v) :: rest =>
      have : debounceRun ((t, v) :: rest) =
          debounceCommits (some (t + 500, v)) rest := by
        cases rest <;> simp [debounceRun, debounceCommits, debounceStep]
      rw [this]
      exact debounceCommits_burst rest t v tl vl hb hl
  · intro st now
    match h : st.debounceTimer with
    | none => simp [tableStep, h]
    | some (deadline, staged) =>
      by_cases hd : deadline ≤ now <;> simp [tableStep, h, hd]

/-- Witness for C2: the spec's example burst `name="fo"`, `"fox"`,
`"foxtrot"` at 0, 200, 400 ms commits exactly `["foxtrot"]`; a burst of two
`{search, replace}` pattern pairs at 0, 300 ms commits exactly the second
pair. -/
theorem debounce_burst_single_fetch_witness :
    (burstWithin500 [(0, "fo"), (200, "fox"), (400, "foxtrot")] = true ∧
     [(0, "fo"), (200, "fox"), (400, "foxtrot")].getLast? =
        some (400, "foxtrot") ∧
     debounceRun [(0, "fo"), (200, "fox"), (400, "foxtrot")] =
        ["foxtrot"]) ∧
    (burstWithin500 [(0, ("a", "x")), (300, ("ab", "xy"))] = true ∧
     debounceRun [(0, ("a", "x")), (300, ("ab", "xy"))] = [("ab", "xy")]) :=
  ⟨⟨by decide, by decide,
    (debounce_burst_single_fetch [(0, "fo"), (200, "fox"), (400, "foxtrot")]
      400 "foxtrot" (by decide) (by decide)).1⟩,
   ⟨by decide,
    (debounce_burst_single_fetch [(0, ("a", "x")), (300, ("ab", "xy"))]
      300 ("ab", "xy") (by decide) (by decide)).1⟩⟩

end Dispatcharr

namespace Dispatcharr

/-- Helper for C7: `Math.ceil(c / ps)` for `ps > 0` is the ceiling of the
division — the unique value whose multiple by `ps` covers `c` but overshoots
by less than one page. -/
theorem mathCeilDiv_spec (c ps : Nat) (h : 0 < ps) :
    c ≤ mathCeilDiv c ps * ps ∧ mathCeilDiv c ps * ps < c + ps := by
  have hd := Nat.div_add_mod (c + ps - 1) ps
  have hm : (c + ps - 1) % ps < ps := Nat.mod_lt _ h
  have hq : mathCeilDiv c ps * ps = ps * ((c + ps - 1) / ps) :=
    Nat.mul_comm _ _
  rw [hq]
  omega

/-- C7: the request built by `fetchData` carries `page = pageIndex + 1`
(1-based), `page_size = pageSize`, an `ordering` equal to the sort field
preceded by `-` exactly when the direction is descending (whenever a sort is
active), and every committed filter entry with a nonempty value.  On
success, the controller stores the returned rows, sets the page count to
the ceiling of `count / pageSize` (characterized by the two inequalities),
and renders the range string `"X to Y of Z"` with
`X = pageIndex * pageSize + 1` and
`Y = min((pageIndex + 1) * pageSize, count)`. -/
theorem fetch_params_and_success_update (pag : Pagination)
    (sorting : List SortEntry) (ft : Filters) (st : TableState)
    (res : QueryResult) (ids : List Nat) (groups : List String)
    (hps : 0 < st.pagination.pageSize) :
    (buildParams pag sorting ft).lookup "page" =
        some (toString (pag.pageIndex + 1)) ∧
    (buildParams pag sorting ft).lookup "page_size" =
        some (toString pag.pageSize) ∧
    (∀ e rest, sorting = e :: rest →
      (buildParams pag sorting ft).lookup "ordering" =
        some ((if directionOf sorting = SortDirection.desc then "-" else "")
          ++ e.id)) ∧
    (∀ k v, (k, v) ∈ ft.entries → v ≠ "" →
      (k, v) ∈ buildParams pag sorting ft) ∧
    ((fetchDataComplete st (FetchOutcome.success res ids groups)).data =
        res.results ∧
     (fetchDataComplete st (FetchOutcome.success res ids groups)).allRowIds =
        ids ∧
     res.count ≤
        (fetchDataComplete st
          (FetchOutcome.success res ids groups)).pageCount *
          st.pagination.pageSize ∧
     (fetchDataComplete st (FetchOutcome.success res ids groups)).pageCount *
          st.pagination.pageSize < res.count + st.pagination.pageSize ∧
     (fetchDataComplete st
          (FetchOutcome.success res ids groups)).paginationString =
        toString (st.pagination.pageIndex * st.pagination.pageSize + 1)
          ++ " to "
          ++ toString (min ((st.pagination.pageIndex + 1) *
                st.pagination.pageSize) res.count)
          ++ " of " ++ toString res.count) := by
  refine ⟨rfl, rfl, ?_, ?_, rfl, rfl, ?_, ?_, rfl⟩
  · intro e rest hs
    subst hs
    cases he : e.desc <;>
      simp [buildParams, orderingParam, List.lookup, directionOf, he,
        DescVal.truthy]
  · intro k v hmem hne
    unfold buildParams
    refine List.mem_append.mpr (Or.inr ?_)
    exact List.mem_filter.mpr ⟨hmem, by simpa using hne⟩
  · exact (mathCeilDiv_spec res.count st.pagination.pageSize hps).1
  · exact (mathCeilDiv_spec res.count st.pagination.pageSize hps).2

/-- Witness for C7 at concrete inputs: page size 50 is positive, and the
`page` parameter of a request for 0-based page 2 is `"3"`. -/
theorem fetch_params_and_success_update_witness :
    0 < sampleTableState.pagination.pageSize ∧
    (buildParams ⟨2, 10⟩ [⟨"name", DescVal.btrue⟩]
        ⟨"fox", "", ""⟩).lookup "page" = some (toString (2 + 1)) :=
  ⟨by decide,
   (fetch_params_and_success_update ⟨2, 10⟩ [⟨"name", DescVal.btrue⟩]
      ⟨"fox", "", ""⟩ sampleTableState ⟨[⟨7⟩], 101⟩ [7] []
      (by decide)).1⟩

end Dispatcharr

namespace Dispatcharr

/-- C4: dropping the row at position `i` onto the row at position `j`
computes exactly the remove-then-insert of the dragged row, applies it as
the new local row list, and passes that full new id order to the persist
call; concretely, dragging `C` (id 3) over `A` (id 1, position 0) in
`[A, B, C, D]` yields local order `[C, A, B, D]` and persisted order
`[3, 1, 2, 4]`. -/
theorem drop_remove_then_insert (data : List Stream) (i j : Nat)
    (hi : i < data.length) (hj : j < data.length)
    (hnd : (data.map Stream.id).Nodup) (hij : i ≠ j) :
    (handleDragEnd true data (some data[i].id) (some data[j].id)).1 =
      (data.eraseIdx i).insertIdx j data[i] ∧
    (handleDragEnd true data (some data[i].id) (some data[j].id)).2 =
      some (((data.eraseIdx i).insertIdx j data[i]).map Stream.id) ∧
    handleDragEnd true sampleRows (some 3) (some 1) =
      ([⟨3, "C"⟩, ⟨1, "A"⟩, ⟨2, "B"⟩, ⟨4, "D"⟩], some [3, 1, 2, 4]) := by
  have him : i < (data.map Stream.id).length := by simpa using hi
  have hjm : j < (data.map Stream.id).length := by simpa using hj
  have hgi : data[i].id = (data.map Stream.id)[i] :=
    (List.getElem_map Stream.id).symm
  have hgj : data[j].id = (data.map Stream.id)[j] :=
    (List.getElem_map Stream.id).symm
  have idxi : (data.map Stream.id).indexOf data[i].id = i := by
    rw [hgi]; exact List.indexOf_getElem hnd i him
  have idxj : (data.map Stream.id).indexOf data[j].id = j := by
    rw [hgj]; exact List.indexOf_getElem hnd j hjm
  have hne : data[i].id ≠ data[j].id := by
    rw [hgi, hgj]
    intro he
    exact hij (hnd.getElem_inj_iff.mp he)
  refine ⟨?_, ?_, by decide⟩ <;>
    simp [handleDragEnd, hne, idxi, idxj, arrayMove,
      List.getElem?_eq_getElem hi]

/-- Witness for C4: the hypotheses hold for `[A, B, C, D]` with `i = 2`
(row `C`) and `j = 0` (row `A`), and the drop yields local order
`[C, A, B, D]` with persisted ids `[3, 1, 2, 4]`. -/
theorem drop_remove_then_insert_witness :
    ((2 : Nat) < sampleRows.length ∧ (0 : Nat) < sampleRows.length ∧
     (sampleRows.map Stream.id).Nodup ∧ (2 : Nat) ≠ 0) ∧
    handleDragEnd true sampleRows (some 3) (some 1) =
      ([⟨3, "C"⟩, ⟨1, "A"⟩, ⟨2, "B"⟩, ⟨4, "D"⟩], some [3, 1, 2, 4]) :=
  ⟨⟨by decide, by decide, by decide, by decide⟩,
   (drop_remove_then_insert sampleRows 2 0 (by decide) (by decide)
      (by decide) (by decide)).2.2⟩

/-- C5 counterexample: with an unprivileged actor (`isAdmin = false`), a
`grab` from Idle still enters a Dragging session, contradicting the claim
that the gesture is rejected before a session starts.  The source renders
the drag handle active for every row and checks the privilege only inside
`handleDragEnd` (M3UProfile.jsx lines 472–474), i.e. at drop. -/
theorem unprivileged_grab_enters_dragging :
    (dragStep false ⟨DragPhase.Idle, sampleRows, []⟩
        (DragEvent.grab 3)).phase = DragPhase.Dragging 3 ∧
    DragPhase.Dragging 3 ≠ DragPhase.Idle :=
  ⟨rfl, by decide⟩

/-- C5 amended: an unprivileged actor's grab does start a Dragging session
(no privilege check runs at grab time), but the check inside `handleDragEnd`
means that over any sequence of drag events no reorder is applied to the
local view and no order is ever persisted on an unprivileged actor's
behalf. -/
theorem unprivileged_never_persists (st : DragState) (es : List DragEvent) :
    (es.foldl (dragStep false) st).persisted = st.persisted ∧
    (es.foldl (dragStep false) st).data = st.data := by
  induction es generalizing st with
  | nil => exact ⟨rfl, rfl⟩
  | cons e es ih =>
    have hstep : (dragStep false st e).persisted = st.persisted ∧
        (dragStep false st e).data = st.data := by
      cases e <;> cases hph : st.phase <;>
        simp [dragStep, handleDragEnd, hph]
    obtain ⟨h1, h2⟩ := ih (dragStep false st e)
    simp only [List.foldl_cons]
    exact ⟨h1.trans hstep.1, h2.trans hstep.2⟩

/-- C6: from a Dragging session, a drop followed by a failed persist
(`nack`) leaves the displayed order exactly as the optimistic order applied
at drop — the source attaches no `.catch` to the persist promise and never
restores the previous `data` — and the coordinator is back at Idle. -/
theorem persist_failure_keeps_optimistic_order (st : DragState) (a : Nat)
    (over : Option Nat) (hph : st.phase = DragPhase.Dragging a) :
    (dragStep true (dragStep true st (DragEvent.drop over))
        DragEvent.nack).phase = DragPhase.Idle ∧
    (dragStep true (dragStep true st (DragEvent.drop over))
        DragEvent.nack).data =
      (handleDragEnd true st.data (some a) over).1 ∧
    (dragStep true (dragStep true st (DragEvent.drop over))
        DragEvent.nack).data =
      (dragStep true st (DragEvent.drop over)).data := by
  cases hper : (handleDragEnd true st.data (some a) over).2 with
  | none => simp [dragStep, hph, hper]
  | some order => simp [dragStep, hph, hper]

/-- Witness for C6: dragging `C` over `A` in `[A, B, C, D]` and then
failing the persist leaves the optimistic order `[C, A, B, D]` displayed
and the coordinator Idle. -/
theorem persist_failure_keeps_optimistic_order_witness :
    (⟨DragPhase.Dragging 3, sampleRows, []⟩ : DragState).phase =
        DragPhase.Dragging 3 ∧
    ((dragStep true (dragStep true ⟨DragPhase.Dragging 3, sampleRows, []⟩
        (DragEvent.drop (some 1))) DragEvent.nack).phase =
          DragPhase.Idle ∧
     (dragStep true (dragStep true ⟨DragPhase.Dragging 3, sampleRows, []⟩
        (DragEvent.drop (some 1))) DragEvent.nack).data =
       (handleDragEnd true sampleRows (some 3) (some 1)).1 ∧
     (dragStep true (dragStep true ⟨DragPhase.Dragging 3, sampleRows, []⟩
        (DragEvent.drop (some 1))) DragEvent.nack).data =
       (dragStep true (⟨DragPhase.Dragging 3, sampleRows, []⟩ : DragState)
          (DragEvent.drop (some 1))).data) :=
  ⟨rfl,
   persist_failure_keeps_optimistic_order
     ⟨DragPhase.Dragging 3, sampleRows, []⟩ 3 (some 1) rfl⟩

end Dispatcharr
